import Mathlib

/-!
Verification of the hope-terminal kiosk supervisor against its design
specification. Each definition below is a shallow embedding of a function of
the TypeScript source (src/process-manager.ts, src/screen-detect.ts,
src/browser.ts and the supervisor entry file): pure parsing and selection
logic becomes a Lean function, the polling loops become fuel-indexed loops
whose fuel provably covers the hard timeout ceiling of the source loop, and
the event handlers become explicit state transitions. Machine time is
modelled in milliseconds as natural numbers; the moment a child process exits
is an `Option Nat` parameter (`none` meaning the process never exits on its
own after the signal).
-/

namespace HopeTerminal

/-! ## Workload process manager (src/process-manager.ts) -/

/-- The single-quote character (codepoint 39), written by codepoint. -/
def squote : Char := Char.ofNat 39

/-- Mutable cursor state of the character loop inside `parseCommand`
(src/process-manager.ts lines 22-55): the tokens pushed so far, the token
being built, and the quoting mode. -/
structure ParseState where
  parts : List String
  current : String
  inQuote : Bool
  quoteChar : Char
deriving DecidableEq

/-- One iteration of the `for` loop of `parseCommand` over one character:
inside a quote the matching quote character closes it and any other character
is appended; outside a quote a quote character opens quoting, a space or tab
flushes a non-empty current token, and any other character is appended. -/
def parseStep (st : ParseState) (c : Char) : ParseState :=
  if st.inQuote then
    if c = st.quoteChar then { st with inQuote := false }
    else { st with current := st.current.push c }
  else if c = '"' ∨ c = squote then
    { st with inQuote := true, quoteChar := c }
  else if c = ' ' ∨ c = '\t' then
    if st.current = "" then st
    else { st with parts := st.parts ++ [st.current], current := "" }
  else { st with current := st.current.push c }

/-- After the loop, a non-empty current token is flushed
(src/process-manager.ts lines 50-52). -/
def parseFinish (st : ParseState) : List String :=
  if st.current = "" then st.parts else st.parts ++ [st.current]

/-- `parseCommand` of src/process-manager.ts: split a command string into
tokens, honouring single- and double-quoted substrings (quotes stripped,
unquoted whitespace splits). The TypeScript loop indexes the string left to
right, which is a left fold over its characters. -/
def parseCommand (command : String) : List String :=
  parseFinish (command.data.foldl parseStep ⟨[], "", false, '"'⟩)

/-- The message of the error `startProcess` throws on an empty parse
(src/process-manager.ts line 64). -/
def emptyCommandError : String := "Empty command provided"

/-- `startProcess` of src/process-manager.ts up to the spawn: parse the
command string, throw if the parse yields zero tokens, otherwise hand the
token list to the spawn. The embedding returns the argv that is spawned. -/
def startProcess (command : String) : Except String (List String) :=
  let parts := parseCommand command
  if parts = [] then Except.error emptyCommandError
  else Except.ok parts

/-- Modelled from the claim: command strings consisting only of whitespace
and adjacent identical quote pairs (a quoted empty string such as two
double quotes in a row). Every such string parses to zero tokens. -/
inductive QuotePairsWS : List Char → Prop where
  | nil : QuotePairsWS []
  | ws (c : Char) (rest : List Char) (hc : c = ' ' ∨ c = '\t')
      (h : QuotePairsWS rest) : QuotePairsWS (c :: rest)
  | pair (q : Char) (rest : List Char) (hq : q = '"' ∨ q = squote)
      (h : QuotePairsWS rest) : QuotePairsWS (q :: q :: rest)

/-- `GRACEFUL_TIMEOUT_MS` of src/process-manager.ts: 5 minutes. -/
def GRACEFUL_TIMEOUT_MS : Nat := 5 * 60 * 1000

/-- Whether a process whose exit moment is `exitAt` (milliseconds after the
interrupt; `none` = never exits by itself) has a non-null exit code at time
`t`. -/
def exitedBy (exitAt : Option Nat) (t : Nat) : Bool :=
  match exitAt with
  | none => false
  | some e => e ≤ t

/-- The polling `while` loop of `gracefulStop` (src/process-manager.ts lines
97-116), observed at 100 ms granularity: at elapsed time `elapsed`, exit the
loop with `true` when the exit code is set, force-kill and return `false`
when `elapsed` has reached `GRACEFUL_TIMEOUT_MS`, otherwise sleep 100 ms.
The fuel argument only bounds the recursion; `gracefulStop` passes enough
fuel that the fuel-exhausted branch is unreachable before the ceiling. -/
def gracefulStopFuel : Nat → Option Nat → Nat → Bool
  | 0, _, _ => false
  | fuel + 1, exitAt, elapsed =>
    if exitedBy exitAt elapsed then true
    else if GRACEFUL_TIMEOUT_MS ≤ elapsed then false
    else gracefulStopFuel fuel exitAt (elapsed + 100)

/-- `gracefulStop` of src/process-manager.ts: SIGINT was sent at time 0; poll
every 100 ms from elapsed 0; `true` means the process exited by itself
(graceful), `false` means the 5-minute ceiling was hit and SIGKILL was sent.
3001 units of fuel cover the elapsed times 0, 100, ..., 300000. -/
def gracefulStop (exitAt : Option Nat) : Bool :=
  gracefulStopFuel 3001 exitAt 0

/-! ## Power monitor (src/process-manager.ts `startPowerMonitor`) -/

/-- `PowerStatus` of the power monitor. -/
inductive PowerStatus where
  | ac
  | battery
  | unknown
deriving DecidableEq

/-- The body of `poll` (src/process-manager.ts lines 223-239) fires
`onDisconnect` exactly when the previous status is `ac` and the newly read
status is `battery`, then replaces the previous status. `countDisconnects
current polls` is the number of `onDisconnect` invocations over a finite
sequence of polled statuses starting from stored status `current`. -/
def countDisconnects (current : PowerStatus) : List PowerStatus → Nat
  | [] => 0
  | s :: rest =>
    (if current = PowerStatus.ac ∧ s = PowerStatus.battery then 1 else 0)
      + countDisconnects s rest

/-- Modelled from the spec: the number of adjacent ac→battery transitions in
a status sequence (an edge-triggered event, fired once per edge and never on
repeats or on edges involving `unknown`). -/
def countAcBatteryEdges : List PowerStatus → Nat
  | a :: b :: rest =>
    (if a = PowerStatus.ac ∧ b = PowerStatus.battery then 1 else 0)
      + countAcBatteryEdges (b :: rest)
  | _ => 0

/-! ## Screen detection (src/screen-detect.ts) -/

/-- `ScreenInfo` of src/screen-detect.ts. -/
structure ScreenInfo where
  name : String
  width : Int
  height : Int
  xOffset : Int
  yOffset : Int
  isPrimary : Bool
deriving DecidableEq

/-- One step of the stable sort `[...screens].sort((a, b) => b.xOffset -
a.xOffset)` of src/screen-detect.ts line 102: insert `x` in front of the
first already-placed screen whose `xOffset` does not exceed it. Since `x`
stands earlier in the original list than everything already placed, placing
it in front of equal keys is exactly the stability guarantee of the
JavaScript sort. -/
def insertByXOffsetDesc (x : ScreenInfo) : List ScreenInfo → List ScreenInfo
  | [] => [x]
  | y :: ys =>
    if y.xOffset ≤ x.xOffset then x :: y :: ys
    else y :: insertByXOffsetDesc x ys

/-- The stable descending-by-`xOffset` sort of src/screen-detect.ts line
102, as an insertion sort (the unique stable sort for this key order). -/
def sortByXOffsetDesc (screens : List ScreenInfo) : List ScreenInfo :=
  screens.foldr insertByXOffsetDesc []

/-- `findSecondaryScreen` of src/screen-detect.ts (lines 75-109), with the
detected screen list as input: first non-primary screen if any; `none` for a
single primary screen; for several screens all marked primary, the head of
the descending stable sort by `xOffset` (the code indexes `sorted[0]`). -/
def findSecondaryScreen (screens : List ScreenInfo) : Option ScreenInfo :=
  match screens.find? (fun s => !s.isPrimary) with
  | some secondary => some secondary
  | none =>
    if screens.length = 1 then none
    else if 1 < screens.length then (sortByXOffsetDesc screens).head?
    else none

/-- Modelled from the spec: the screen with the largest `xOffset`, ties
resolving to the first encountered in query order. -/
def firstMaxXOffset : List ScreenInfo → Option ScreenInfo
  | [] => none
  | x :: xs =>
    match firstMaxXOffset xs with
    | none => some x
    | some m => if x.xOffset < m.xOffset then some m else some x

/-! ## Browser close (src/browser.ts lines 204-226 and the same handle in
the supervisor entry file) -/

/-- What `close()` has done by the time it returns: which signals were sent
and whether the browser process had a non-null exit code at the moment
`close()` returned. -/
structure CloseResult where
  sigtermSent : Bool
  sigkillSent : Bool
  exitedAtReturn : Bool
deriving DecidableEq

/-- The 5-second ceiling of the close loop (src/browser.ts line 211). -/
def BROWSER_CLOSE_TIMEOUT_MS : Nat := 5000

/-- The code after the polling loop of `close()`: if the exit code is still
null, send SIGKILL and return at once (no further wait); otherwise return
with the exit observed. SIGTERM was sent before the loop in both cases. -/
def closeFinish (exitAt : Option Nat) (elapsed : Nat) : CloseResult :=
  if exitedBy exitAt elapsed then ⟨true, false, true⟩
  else ⟨true, true, false⟩

/-- The `while` loop of `close()` (src/browser.ts lines 214-216), polling
every 100 ms: keep sleeping while the exit code is null and the elapsed time
is strictly below the 5-second ceiling; on loop exit run `closeFinish`. The
fuel only bounds the recursion; `browserClose` passes enough fuel that the
fuel-exhausted branch is unreachable before the ceiling. -/
def browserCloseFuel : Nat → Option Nat → Nat → CloseResult
  | 0, exitAt, elapsed => closeFinish exitAt elapsed
  | fuel + 1, exitAt, elapsed =>
    if !exitedBy exitAt elapsed ∧ elapsed < BROWSER_CLOSE_TIMEOUT_MS then
      browserCloseFuel fuel exitAt (elapsed + 100)
    else closeFinish exitAt elapsed

/-- `close()` of the browser handle: SIGTERM at time 0, poll every 100 ms up
to the 5-second ceiling, SIGKILL without waiting if the exit code is still
null at the ceiling. `exitAt` is the moment the browser process would exit
after SIGTERM (`none` = it ignores SIGTERM). 51 units of fuel cover the
elapsed times 0, 100, ..., 5000. -/
def browserClose (exitAt : Option Nat) : CloseResult :=
  browserCloseFuel 51 exitAt 0

/-! ## Supervisor state and handlers (entry file of the repository) -/

/-- The part of a live browser handle the supervisor state machine reads:
whether its process has a non-null exit code (`isBrowserRunning`). -/
structure BrowserProc where
  exited : Bool
deriving DecidableEq

/-- The module-level supervisor state of the entry file (lines 290-294):
`browser`, `currentScreenName` and the `isShuttingDown` latch. -/
structure SupervisorState where
  browser : Option BrowserProc
  currentScreenName : Option String
  isShuttingDown : Bool
deriving DecidableEq

/-- `isBrowserRunning` of the entry file (lines 387-389): a browser handle
is present and its exit code is null. -/
def isBrowserRunning (st : SupervisorState) : Bool :=
  match st.browser with
  | none => false
  | some b => !b.exited

/-- One execution of the screen-monitor tick body (entry file lines
399-443), as a transition on the supervisor state. Inputs of the tick:
`secondaryScreen`, the result of `findSecondaryScreen` this tick, and
`launchResult`, what `launchBrowser` returns if the tick calls it (`none` =
launch failed). The branch structure mirrors the source if/else-if chain:
(1) screen present and no running browser: store the screen name, then
overwrite the handle with the launch result; (2) no screen and a handle
present: close if running, null both fields; (3) screen present, browser
running, name differs from the stored name: close the old browser, store the
new name, overwrite the handle with the launch result. A tick during
shutdown returns at once. -/
def screenMonitorTick (st : SupervisorState) (secondaryScreen : Option ScreenInfo)
    (launchResult : Option BrowserProc) : SupervisorState :=
  if st.isShuttingDown then st
  else
    match secondaryScreen with
    | some scr =>
      if !isBrowserRunning st then
        { st with currentScreenName := some scr.name, browser := launchResult }
      else if some scr.name ≠ st.currentScreenName then
        { st with currentScreenName := some scr.name, browser := launchResult }
      else st
    | none =>
      match st.browser with
      | some _ => { st with browser := none, currentScreenName := none }
      | none => st

/-- What `handlePowerDisconnect` (entry file lines 341-382) does on entry:
either it returns at once because the latch is already set, or it sets the
latch and runs the whole shutdown sequence (stop screen monitor, SIGINT +
await workload exit, close browser, system shutdown, exit 0). -/
inductive PowerDisconnectOutcome where
  | ignored
  | ranShutdownSequence
deriving DecidableEq

/-- The latch guard of `handlePowerDisconnect` (entry file lines 342-347):
the outcome and the value of `isShuttingDown` afterwards. -/
def handlePowerDisconnect (isShuttingDown : Bool) :
    PowerDisconnectOutcome × Bool :=
  if isShuttingDown then (PowerDisconnectOutcome.ignored, isShuttingDown)
  else (PowerDisconnectOutcome.ranShutdownSequence, true)

/-- What `handleManualTermination` (entry file lines 459-483) does on entry:
either an immediate `process.exit(1)` because the latch is already set, or
it sets the latch and runs the cleanup (stop screen monitor, `gracefulStop`
the workload, close browser, exit 0). -/
inductive ManualTerminationOutcome where
  | forcedExit (code : Nat)
  | ranCleanup
deriving DecidableEq

/-- The latch guard of `handleManualTermination` (entry file lines 460-465):
the outcome and the value of `isShuttingDown` afterwards. -/
def handleManualTermination (isShuttingDown : Bool) :
    ManualTerminationOutcome × Bool :=
  if isShuttingDown then (ManualTerminationOutcome.forcedExit 1, isShuttingDown)
  else (ManualTerminationOutcome.ranCleanup, true)

/-- Step 1 of `handlePowerDisconnect` when the workload is running (entry
file lines 356-364): `kill("SIGINT")` followed by a plain
`await process.exited`. The await resolves exactly when the process exits;
there is no ceiling and no escalation, so a process that never exits is
awaited forever. -/
inductive AwaitResult where
  | resolvedAt (t : Nat)
  | neverResolves
deriving DecidableEq

/-- The unbounded workload-exit await of the power-disconnect path. -/
def powerPathAwaitExit (exitAt : Option Nat) : AwaitResult :=
  match exitAt with
  | some t => AwaitResult.resolvedAt t
  | none => AwaitResult.neverResolves

/-! ## Workload auto-restart loop (entry file lines 544-571) -/

/-- `RESTART_DELAY_MS` of the entry file (line 545). -/
def RESTART_DELAY_MS : Nat := 5000

/-- What one iteration of the auto-restart loop decides after the workload
exits. -/
inductive RestartDecision where
  | respawn (command : String) (delayMs : Nat)
  | noRespawn
deriving DecidableEq

/-- One iteration of the `while (!isShuttingDown)` loop of `main` after
`await managedProcess.process.exited` resolves with exit code `exitCode`:
break if the latch is set right after the exit (`sdAtExit`), otherwise wait
`RESTART_DELAY_MS`, break if the latch became set during the wait
(`sdAfterDelay`), otherwise respawn `startProcess(command)` with the very
same command string. The exit code is read and logged but never influences
the decision. -/
def restartLoopIteration (command : String) (exitCode : Int)
    (sdAtExit sdAfterDelay : Bool) : RestartDecision :=
  if sdAtExit then RestartDecision.noRespawn
  else if sdAfterDelay then RestartDecision.noRespawn
  else RestartDecision.respawn command RESTART_DELAY_MS

/-! ## Helper lemmas -/

/-- A single `parseCommand` loop step never pushes an empty token: the flush
branch is guarded by the current token being non-empty. -/
lemma parseStep_no_empty (st : ParseState) (c : Char) (h : "" ∉ st.parts) :
    "" ∉ (parseStep st c).parts := by
  unfold parseStep
  split_ifs with h1 h2 h3 h4 h5 <;> simp_all
  exact fun he => h5 he.symm

lemma foldl_parseStep_no_empty (cs : List Char) :
    ∀ (st : ParseState), "" ∉ st.parts → "" ∉ (cs.foldl parseStep st).parts := by
  induction cs with
  | nil => intro st h; exact h
  | cons c cs ih => intro st h; exact ih _ (parseStep_no_empty st c h)

lemma parseFinish_no_empty (st : ParseState) (h : "" ∉ st.parts) :
    "" ∉ parseFinish st := by
  unfold parseFinish
  split_ifs with h1
  · exact h
  · simp_all
    exact fun he => h1 he.symm

lemma parseCommand_no_empty (cmd : String) : "" ∉ parseCommand cmd :=
  parseFinish_no_empty _ (foldl_parseStep_no_empty cmd.data _ (by simp))

/-- Feeding the parse loop any string of whitespace and adjacent identical
quote pairs, starting outside a quote with an empty current token, leaves
the token list, the current token and the quote mode untouched. -/
lemma quotePairs_foldl (cs : List Char) (hcs : QuotePairsWS cs) :
    ∀ (st : ParseState), st.inQuote = false → st.current = "" →
      (cs.foldl parseStep st).parts = st.parts
      ∧ (cs.foldl parseStep st).current = ""
      ∧ (cs.foldl parseStep st).inQuote = false := by
  induction hcs with
  | nil => intro st h1 h2; exact ⟨rfl, h2, h1⟩
  | ws c rest hc hrest ih =>
    intro st h1 h2
    have hnq : ¬(c = '"' ∨ c = squote) := by
      rcases hc with rfl | rfl <;> decide
    have hstep : parseStep st c = st := by
      simp [parseStep, h1, h2, hnq, hc]
    rw [List.foldl_cons, hstep]
    exact ih st h1 h2
  | pair q rest hq hrest ih =>
    intro st h1 h2
    have hstep1 : parseStep st q = { st with inQuote := true, quoteChar := q } := by
      simp [parseStep, h1, hq]
    have hstep2 : parseStep { st with inQuote := true, quoteChar := q } q
        = { st with inQuote := false, quoteChar := q } := by
      simp [parseStep]
    rw [List.foldl_cons, List.foldl_cons, hstep1, hstep2]
    have := ih { st with inQuote := false, quoteChar := q } rfl h2
    simpa using this

/-- `firstMaxXOffset` returns a screen for every non-empty list. -/
lemma firstMaxXOffset_eq_none (screens : List ScreenInfo) :
    firstMaxXOffset screens = none ↔ screens = [] := by
  cases screens with
  | nil => simp [firstMaxXOffset]
  | cons x xs =>
    simp only [firstMaxXOffset]
    cases h : firstMaxXOffset xs with
    | none => simp
    | some m => by_cases hlt : x.xOffset < m.xOffset <;> simp [hlt]

/-- The head of the stable descending sort by `xOffset` is the first
list element attaining the maximal `xOffset`. -/
lemma sortByXOffsetDesc_head (screens : List ScreenInfo) (hne : screens ≠ []) :
    (sortByXOffsetDesc screens).head? = firstMaxXOffset screens := by
  induction screens with
  | nil => exact absurd rfl hne
  | cons x xs ih =>
    by_cases hxs : xs = []
    · subst hxs
      simp [sortByXOffsetDesc, insertByXOffsetDesc, firstMaxXOffset]
    · have ihx := ih hxs
      cases hm : firstMaxXOffset xs with
      | none => exact absurd ((firstMaxXOffset_eq_none xs).mp hm) hxs
      | some m =>
        rw [hm] at ihx
        obtain ⟨rest, hrest⟩ : ∃ t, sortByXOffsetDesc xs = m :: t := by
          cases hs : sortByXOffsetDesc xs with
          | nil => rw [hs] at ihx; simp at ihx
          | cons y ys => rw [hs] at ihx; simp at ihx; exact ⟨ys, by rw [ihx]⟩
        have hfold : sortByXOffsetDesc (x :: xs)
            = insertByXOffsetDesc x (sortByXOffsetDesc xs) := rfl
        rw [hfold, hrest]
        simp only [insertByXOffsetDesc, firstMaxXOffset, hm]
        rcases le_or_lt m.xOffset x.xOffset with hle | hlt
        · rw [if_pos hle, if_neg (not_lt.mpr hle)]
          rfl
        · rw [if_neg (not_le.mpr hlt), if_pos hlt]
          rfl

/-- `firstMaxXOffset` really picks a member whose `xOffset` dominates the
whole list. -/
lemma firstMaxXOffset_spec (screens : List ScreenInfo) (r : ScreenInfo)
    (h : firstMaxXOffset screens = some r) :
    r ∈ screens ∧ ∀ t ∈ screens, t.xOffset ≤ r.xOffset := by
  induction screens generalizing r with
  | nil => simp [firstMaxXOffset] at h
  | cons x xs ih =>
    simp only [firstMaxXOffset] at h
    cases hm : firstMaxXOffset xs with
    | none =>
      rw [hm] at h
      simp at h
      subst h
      have hxs : xs = [] := (firstMaxXOffset_eq_none xs).mp hm
      subst hxs
      exact ⟨List.mem_singleton_self x, by simp⟩
    | some m =>
      rw [hm] at h
      obtain ⟨hmem, hmax⟩ := ih m hm
      by_cases hlt : x.xOffset < m.xOffset
      · obtain rfl : m = r := by simpa [hlt] using h
        refine ⟨List.mem_cons_of_mem x hmem, ?_⟩
        intro t ht
        rcases List.mem_cons.mp ht with rfl | ht
        · exact le_of_lt hlt
        · exact hmax t ht
      · obtain rfl : x = r := by simpa [hlt] using h
        refine ⟨List.mem_cons_self x xs, ?_⟩
        intro t ht
        rcases List.mem_cons.mp ht with rfl | ht
        · exact le_refl _
        · exact (hmax t ht).trans (not_lt.mp hlt)

/-- A process that exits within the 5-minute ceiling is seen exiting by the
`gracefulStop` polling loop. -/
lemma gracefulStopFuel_graceful (t : Nat) :
    ∀ (fuel k : Nat), 100 * k ≤ GRACEFUL_TIMEOUT_MS →
      GRACEFUL_TIMEOUT_MS < 100 * (k + fuel) → t ≤ GRACEFUL_TIMEOUT_MS →
      gracefulStopFuel fuel (some t) (100 * k) = true := by
  intro fuel
  induction fuel with
  | zero =>
    intro k h1 h2 h3
    exfalso
    simp [GRACEFUL_TIMEOUT_MS] at h1 h2
    omega
  | succ fuel ih =>
    intro k h1 h2 h3
    by_cases hexit : t ≤ 100 * k
    · simp [gracefulStopFuel, exitedBy, hexit]
    · have hk : 100 * k < GRACEFUL_TIMEOUT_MS := by
        simp [GRACEFUL_TIMEOUT_MS] at h3 ⊢
        omega
      have hrec : 100 * k + 100 = 100 * (k + 1) := by ring
      simp only [gracefulStopFuel, exitedBy, hexit, decide_eq_true_eq, if_false,
        decide_False, Bool.false_eq_true, if_neg (not_le.mpr hk), hrec]
      exact ih (k + 1) (by simp [GRACEFUL_TIMEOUT_MS] at hk ⊢; omega)
        (by simp [GRACEFUL_TIMEOUT_MS] at h2 ⊢; omega) h3

lemma gracefulStop_graceful (t : Nat) (ht : t ≤ GRACEFUL_TIMEOUT_MS) :
    gracefulStop (some t) = true := by
  have := gracefulStopFuel_graceful t 3001 0 (by simp [GRACEFUL_TIMEOUT_MS])
    (by simp [GRACEFUL_TIMEOUT_MS]) ht
  simpa [gracefulStop] using this

/-- A process that does not exit within the 5-minute ceiling makes
`gracefulStop` hit the ceiling, force-kill and return `false`. -/
lemma gracefulStopFuel_forced (exitAt : Option Nat)
    (hlate : ∀ e, exitAt = some e → GRACEFUL_TIMEOUT_MS < e) :
    ∀ (fuel k : Nat), 100 * k ≤ GRACEFUL_TIMEOUT_MS →
      gracefulStopFuel fuel exitAt (100 * k) = false := by
  intro fuel
  induction fuel with
  | zero => intro k _; rfl
  | succ fuel ih =>
    intro k h1
    have hexit : exitedBy exitAt (100 * k) = false := by
      cases hx : exitAt with
      | none => rfl
      | some e =>
        have := hlate e hx
        simp [exitedBy]
        omega
    by_cases htime : GRACEFUL_TIMEOUT_MS ≤ 100 * k
    · simp [gracefulStopFuel, hexit, htime]
    · have hrec : 100 * k + 100 = 100 * (k + 1) := by ring
      simp only [gracefulStopFuel, hexit, Bool.false_eq_true, if_false,
        if_neg htime, hrec]
      exact ih (k + 1) (by simp [GRACEFUL_TIMEOUT_MS] at htime ⊢; omega)

lemma gracefulStop_forcedKill (exitAt : Option Nat)
    (hlate : ∀ e, exitAt = some e → GRACEFUL_TIMEOUT_MS < e) :
    gracefulStop exitAt = false := by
  have := gracefulStopFuel_forced exitAt hlate 3001 0
    (by simp [GRACEFUL_TIMEOUT_MS])
  simpa [gracefulStop] using this

/-- A browser that exits within five seconds of SIGTERM is seen exiting by
the close loop: no SIGKILL, exit observed at return. -/
lemma browserCloseFuel_graceful (t : Nat) :
    ∀ (fuel k : Nat), 100 * k ≤ BROWSER_CLOSE_TIMEOUT_MS →
      BROWSER_CLOSE_TIMEOUT_MS < 100 * (k + fuel) → t ≤ BROWSER_CLOSE_TIMEOUT_MS →
      browserCloseFuel fuel (some t) (100 * k) = ⟨true, false, true⟩ := by
  intro fuel
  induction fuel with
  | zero =>
    intro k h1 h2 h3
    exfalso
    simp [BROWSER_CLOSE_TIMEOUT_MS] at h1 h2
    omega
  | succ fuel ih =>
    intro k h1 h2 h3
    by_cases hexit : t ≤ 100 * k
    · have hcond : ¬((!exitedBy (some t) (100 * k)) = true
          ∧ 100 * k < BROWSER_CLOSE_TIMEOUT_MS) := by
        simp [exitedBy, hexit]
      simp [browserCloseFuel, hcond, closeFinish, exitedBy, hexit]
    · have hk : 100 * k < BROWSER_CLOSE_TIMEOUT_MS := by
        simp [BROWSER_CLOSE_TIMEOUT_MS] at h3 ⊢
        omega
      have hcond : ((!exitedBy (some t) (100 * k)) = true
          ∧ 100 * k < BROWSER_CLOSE_TIMEOUT_MS) := by
        simp [exitedBy, hexit, hk]
      have hrec : 100 * k + 100 = 100 * (k + 1) := by ring
      simp only [browserCloseFuel, if_pos hcond, hrec]
      exact ih (k + 1) (by simp [BROWSER_CLOSE_TIMEOUT_MS] at hk ⊢; omega)
        (by simp [BROWSER_CLOSE_TIMEOUT_MS] at h2 ⊢; omega) h3

lemma browserClose_graceful (t : Nat) (ht : t ≤ BROWSER_CLOSE_TIMEOUT_MS) :
    browserClose (some t) = ⟨true, false, true⟩ := by
  have := browserCloseFuel_graceful t 51 0 (by simp [BROWSER_CLOSE_TIMEOUT_MS])
    (by simp [BROWSER_CLOSE_TIMEOUT_MS]) ht
  simpa [browserClose] using this

/-- A browser that survives past the 5-second ceiling gets SIGKILL, and the
close loop returns with the exit not observed. -/
lemma browserCloseFuel_forced (exitAt : Option Nat)
    (hlate : ∀ e, exitAt = some e → BROWSER_CLOSE_TIMEOUT_MS < e) :
    ∀ (fuel k : Nat), 100 * k ≤ BROWSER_CLOSE_TIMEOUT_MS →
      browserCloseFuel fuel exitAt (100 * k) = ⟨true, true, false⟩ := by
  intro fuel
  induction fuel with
  | zero =>
    intro k h1
    have hexit : exitedBy exitAt (100 * k) = false := by
      cases hx : exitAt with
      | none => rfl
      | some e =>
        have := hlate e hx
        simp [exitedBy]
        omega
    simp [browserCloseFuel, closeFinish, hexit]
  | succ fuel ih =>
    intro k h1
    have hexit : exitedBy exitAt (100 * k) = false := by
      cases hx : exitAt with
      | none => rfl
      | some e =>
        have := hlate e hx
        simp [exitedBy]
        omega
    by_cases htime : 100 * k < BROWSER_CLOSE_TIMEOUT_MS
    · have hrec : 100 * k + 100 = 100 * (k + 1) := by ring
      have hcond : ((!exitedBy exitAt (100 * k)) = true
          ∧ 100 * k < BROWSER_CLOSE_TIMEOUT_MS) := by
        simp [hexit, htime]
      simp only [browserCloseFuel, if_pos hcond, hrec]
      exact ih (k + 1) (by simp [BROWSER_CLOSE_TIMEOUT_MS] at htime ⊢; omega)
    · have hcond : ¬((!exitedBy exitAt (100 * k)) = true
          ∧ 100 * k < BROWSER_CLOSE_TIMEOUT_MS) := by
        simp [hexit, htime]
      simp [browserCloseFuel, hcond, closeFinish, hexit]
      intro h
      exact absurd h htime

lemma browserClose_forcedKill (exitAt : Option Nat)
    (hlate : ∀ e, exitAt = some e → BROWSER_CLOSE_TIMEOUT_MS < e) :
    browserClose exitAt = ⟨true, true, false⟩ := by
  have := browserCloseFuel_forced exitAt hlate 51 0
    (by simp [BROWSER_CLOSE_TIMEOUT_MS])
  simpa [browserClose] using this

/-- The poll loop of the power monitor fires once per adjacent ac→battery
pair of the status sequence headed by the stored status. -/
lemma countDisconnects_eq_edges (polls : List PowerStatus) :
    ∀ (current : PowerStatus),
      countDisconnects current polls = countAcBatteryEdges (current :: polls) := by
  induction polls with
  | nil => intro current; rfl
  | cons s rest ih =>
    intro current
    simp only [countDisconnects, countAcBatteryEdges, ih s]

/-- Each screen-monitor tick preserves the direction of the state invariant
that does hold: a non-null browser handle always has a stored screen name. -/
lemma screenMonitorTick_browser_imp_name (st : SupervisorState)
    (oscr : Option ScreenInfo) (lr : Option BrowserProc)
    (h : st.browser ≠ none → st.currentScreenName ≠ none) :
    (screenMonitorTick st oscr lr).browser ≠ none →
    (screenMonitorTick st oscr lr).currentScreenName ≠ none := by
  by_cases hsd : st.isShuttingDown
  · simpa [screenMonitorTick, hsd] using h
  · cases oscr with
    | none =>
      cases hb : st.browser with
      | none => simpa [screenMonitorTick, hsd, hb] using h
      | some b => simp [screenMonitorTick, hsd, hb]
    | some scr =>
      by_cases hrun : isBrowserRunning st = true
      · by_cases hname : some scr.name ≠ st.currentScreenName
        · simp [screenMonitorTick, hsd, hrun, hname]
        · simpa [screenMonitorTick, hsd, hrun, hname] using h
      · have hrun2 : isBrowserRunning st = false := by simpa using hrun
        simp [screenMonitorTick, hsd, hrun2]

/-! ## Claim theorems -/

/-- C1. The spec assigns the unbounded wait to the OS-signal path and the
bounded 5-minute `gracefulStop` wait to the power-loss path; the code has it
the other way around, and the supervisor file's own header comment documents
the power-loss path as waiting at most 5 minutes. At the concrete input of a
workload that never exits after SIGINT: the power-loss step-1 await never
resolves (no ceiling, no force kill), while the OS-signal path's
`gracefulStop` returns `false` after force-killing at the 5-minute ceiling;
a workload exiting exactly at the ceiling is still seen as graceful, one
millisecond later it is force-killed. -/
theorem workloadStop_paths_swapped_at_never_exiting :
    powerPathAwaitExit none = AwaitResult.neverResolves
    ∧ (∀ t : Nat, powerPathAwaitExit (some t) = AwaitResult.resolvedAt t)
    ∧ gracefulStop none = false
    ∧ gracefulStop (some GRACEFUL_TIMEOUT_MS) = true
    ∧ gracefulStop (some (GRACEFUL_TIMEOUT_MS + 1)) = false := by
  refine ⟨rfl, fun t => rfl, ?_, ?_, ?_⟩
  · exact gracefulStop_forcedKill none (by intro e he; cases he)
  · exact gracefulStop_graceful _ le_rfl
  · exact gracefulStop_forcedKill _ (by intro e he; cases he; omega)

/-- C2 (counterexample). One screen-poll tick from the all-null supervisor
state, with a secondary screen detected and the browser launch failing,
leaves `currentScreenName` set to the screen's name while `browser` is
null — refuting the claim that the two fields are null together and that a
failed launch leaves no stored screen name. -/
theorem screenTick_launch_failure_counterexample :
    screenMonitorTick ⟨none, none, false⟩
        (some ⟨"HDMI-1", 1920, 1080, 1920, 0, false⟩) none
      = ⟨none, some "HDMI-1", false⟩
    ∧ ¬ ((screenMonitorTick ⟨none, none, false⟩
          (some ⟨"HDMI-1", 1920, 1080, 1920, 0, false⟩) none).currentScreenName = none
        ↔ (screenMonitorTick ⟨none, none, false⟩
          (some ⟨"HDMI-1", 1920, 1080, 1920, 0, false⟩) none).browser = none) := by
  decide

/-- C2 (amended). `currentScreenName` is written before each launch attempt
and is retained when the launch fails: a tick that sees a secondary screen
and no running browser always stores the screen name and stores exactly the
launch result as the browser (null on failure); the next tick with the same
screen retries the launch from that state; and the direction of the
invariant that does hold — a non-null browser implies a stored screen
name — is preserved by every tick. -/
theorem screenTick_screenName_browser_amended (st : SupervisorState)
    (scr : ScreenInfo) (launch launch2 : Option BrowserProc)
    (hsd : st.isShuttingDown = false) (hrun : isBrowserRunning st = false) :
    screenMonitorTick st (some scr) launch
        = { st with currentScreenName := some scr.name, browser := launch }
    ∧ screenMonitorTick (screenMonitorTick st (some scr) none) (some scr) launch2
        = { st with currentScreenName := some scr.name, browser := launch2 }
    ∧ (∀ (st2 : SupervisorState) (oscr : Option ScreenInfo) (lr : Option BrowserProc),
        (st2.browser ≠ none → st2.currentScreenName ≠ none) →
        ((screenMonitorTick st2 oscr lr).browser ≠ none →
          (screenMonitorTick st2 oscr lr).currentScreenName ≠ none)) := by
  have h1 : screenMonitorTick st (some scr) launch
      = { st with currentScreenName := some scr.name, browser := launch } := by
    simp [screenMonitorTick, hsd, hrun]
  have h0 : screenMonitorTick st (some scr) none
      = { st with currentScreenName := some scr.name, browser := none } := by
    simp [screenMonitorTick, hsd, hrun]
  refine ⟨h1, ?_, fun st2 oscr lr => screenMonitorTick_browser_imp_name st2 oscr lr⟩
  rw [h0]
  simp [screenMonitorTick, hsd, isBrowserRunning]

/-- C2 (witness). The amended theorem applied at the all-null state, the
HDMI-1 secondary screen, a failing launch and a succeeding retry. -/
theorem screenTick_screenName_browser_witness :
    (⟨none, none, false⟩ : SupervisorState).isShuttingDown = false
    ∧ isBrowserRunning ⟨none, none, false⟩ = false
    ∧ (screenMonitorTick ⟨none, none, false⟩
          (some ⟨"HDMI-1", 1920, 1080, 1920, 0, false⟩) none
        = ⟨none, some "HDMI-1", false⟩
      ∧ screenMonitorTick
          (screenMonitorTick ⟨none, none, false⟩
            (some ⟨"HDMI-1", 1920, 1080, 1920, 0, false⟩) none)
          (some ⟨"HDMI-1", 1920, 1080, 1920, 0, false⟩) (some ⟨false⟩)
        = ⟨some ⟨false⟩, some "HDMI-1", false⟩
      ∧ (∀ (st2 : SupervisorState) (oscr : Option ScreenInfo)
            (lr : Option BrowserProc),
          (st2.browser ≠ none → st2.currentScreenName ≠ none) →
          ((screenMonitorTick st2 oscr lr).browser ≠ none →
            (screenMonitorTick st2 oscr lr).currentScreenName ≠ none))) :=
  ⟨rfl, rfl, screenTick_screenName_browser_amended ⟨none, none, false⟩
    ⟨"HDMI-1", 1920, 1080, 1920, 0, false⟩ none (some ⟨false⟩) rfl rfl⟩

/-- C3. The `isShuttingDown` latch is one-way and re-entrant triggers are
cut short: with the latch set, a power-disconnect callback returns without
running any shutdown step, and a termination signal forces an immediate
exit with code 1; neither handler ever clears the latch, so after any first
invocation every further invocation hits the latched fast path. -/
theorem shuttingDown_latch :
    handlePowerDisconnect true = (PowerDisconnectOutcome.ignored, true)
    ∧ handleManualTermination true = (ManualTerminationOutcome.forcedExit 1, true)
    ∧ handlePowerDisconnect false = (PowerDisconnectOutcome.ranShutdownSequence, true)
    ∧ handleManualTermination false = (ManualTerminationOutcome.ranCleanup, true)
    ∧ (∀ b : Bool, (handlePowerDisconnect b).2 = true)
    ∧ (∀ b : Bool, (handleManualTermination b).2 = true)
    ∧ (∀ b : Bool,
        handlePowerDisconnect ((handlePowerDisconnect b).2)
          = (PowerDisconnectOutcome.ignored, true)
        ∧ handleManualTermination ((handlePowerDisconnect b).2)
          = (ManualTerminationOutcome.forcedExit 1, true)
        ∧ handlePowerDisconnect ((handleManualTermination b).2)
          = (PowerDisconnectOutcome.ignored, true)
        ∧ handleManualTermination ((handleManualTermination b).2)
          = (ManualTerminationOutcome.forcedExit 1, true)) := by
  refine ⟨rfl, rfl, rfl, rfl, ?_, ?_, ?_⟩ <;> intro b <;> cases b <;>
    simp [handlePowerDisconnect, handleManualTermination]

/-- C4. `findSecondaryScreen` follows the selection policy in order: with
any non-primary screen present it returns the first non-primary screen in
query order; a single primary screen yields none; with two or more screens
all marked primary it returns the first screen attaining the maximal
`xOffset` (the head of the stable descending sort — ties resolve to the
first encountered), which is a member dominating every `xOffset` in the
list. -/
theorem findSecondaryScreen_policy (screens : List ScreenInfo) :
    ((∃ s ∈ screens, s.isPrimary = false) →
      findSecondaryScreen screens = screens.find? (fun s => !s.isPrimary))
    ∧ (∀ s : ScreenInfo, screens = [s] → s.isPrimary = true →
        findSecondaryScreen screens = none)
    ∧ (2 ≤ screens.length → (∀ s ∈ screens, s.isPrimary = true) →
        findSecondaryScreen screens = firstMaxXOffset screens)
    ∧ (∀ r : ScreenInfo, firstMaxXOffset screens = some r →
        r ∈ screens ∧ ∀ t ∈ screens, t.xOffset ≤ r.xOffset) := by
  refine ⟨?_, ?_, ?_, fun r hr => firstMaxXOffset_spec screens r hr⟩
  · rintro ⟨s, hs, hns⟩
    cases hfind : screens.find? (fun s => !s.isPrimary) with
    | none =>
      exfalso
      have := List.find?_eq_none.mp hfind s hs
      simp [hns] at this
    | some sec => simp [findSecondaryScreen, hfind]
  · rintro s rfl hp
    simp [findSecondaryScreen, List.find?, hp]
  · intro hlen hall
    have hfind : screens.find? (fun s => !s.isPrimary) = none :=
      List.find?_eq_none.mpr (fun x hx => by simp [hall x hx])
    have hne : screens ≠ [] := by
      intro he
      rw [he] at hlen
      simp at hlen
    have h1 : screens.length ≠ 1 := by omega
    unfold findSecondaryScreen
    rw [hfind]
    rw [if_neg h1, if_pos (by omega)]
    exact sortByXOffsetDesc_head screens hne

/-- C5. The power monitor fires `onDisconnect` exactly once per adjacent
ac→battery transition of the observed status sequence and never otherwise;
in particular the sequence ac, ac, battery, battery, ac, battery yields
exactly two invocations, and battery→battery repeats or transitions through
`unknown` yield none. -/
theorem powerMonitor_edge_trigger :
    (∀ (current : PowerStatus) (polls : List PowerStatus),
      countDisconnects current polls = countAcBatteryEdges (current :: polls))
    ∧ countDisconnects PowerStatus.ac
        [PowerStatus.ac, PowerStatus.battery, PowerStatus.battery,
          PowerStatus.ac, PowerStatus.battery] = 2
    ∧ countDisconnects PowerStatus.unknown
        [PowerStatus.ac, PowerStatus.ac, PowerStatus.battery, PowerStatus.battery,
          PowerStatus.ac, PowerStatus.battery] = 2
    ∧ countDisconnects PowerStatus.battery
        [PowerStatus.battery, PowerStatus.battery] = 0
    ∧ countDisconnects PowerStatus.ac
        [PowerStatus.unknown, PowerStatus.battery] = 0 :=
  ⟨fun current polls => countDisconnects_eq_edges polls current,
    by decide, by decide, by decide, by decide⟩

/-- C6. Command parsing honours quoted substrings with quotes stripped and
unquoted whitespace splitting: the reference command parses to exactly its
four tokens with the double-quoted pair kept as one token (and a
single-quoted pair likewise); the empty string parses to zero tokens; and
`startProcess` throws the empty-command error exactly when the parse yields
zero tokens, spawning the parsed argv otherwise. -/
theorem parseCommand_quoting_startProcess_empty :
    parseCommand ("node server.js --flag \"hello world\"")
      = ["node", "server.js", "--flag", "hello world"]
    ∧ parseCommand (String.mk
        ['a', ' ', squote, 'b', ' ', 'c', squote]) = ["a", "b c"]
    ∧ parseCommand "" = []
    ∧ startProcess "" = Except.error emptyCommandError
    ∧ (∀ cmd : String, parseCommand cmd = [] →
        startProcess cmd = Except.error emptyCommandError)
    ∧ (∀ cmd : String, parseCommand cmd ≠ [] →
        startProcess cmd = Except.ok (parseCommand cmd)) := by
  refine ⟨by decide, by decide, rfl, rfl, ?_, ?_⟩
  · intro cmd h
    simp [startProcess, h]
  · intro cmd h
    simp [startProcess, h]

/-- C7. After a workload exit with any exit code, one restart-loop iteration
respawns the identical command string after the fixed 5-second backoff when
the shutdown latch was clear at exit time and stayed clear through the
backoff, and respawns nothing when the latch was set at exit time or became
set during the backoff. -/
theorem restartLoop_respawn_policy (command : String) (exitCode : Int) :
    restartLoopIteration command exitCode false false
      = RestartDecision.respawn command RESTART_DELAY_MS
    ∧ RESTART_DELAY_MS = 5000
    ∧ (∀ sdAfterDelay : Bool,
        restartLoopIteration command exitCode true sdAfterDelay
          = RestartDecision.noRespawn)
    ∧ restartLoopIteration command exitCode false true
      = RestartDecision.noRespawn := by
  refine ⟨rfl, rfl, ?_, rfl⟩
  intro sd
  cases sd <;> rfl

/-- C8 (counterexample). Closing a browser that ignores SIGTERM: `close()`
sends SIGKILL at the 5-second ceiling and returns at once with the exit
code still null — the process has not been observed to exit when `close()`
returns, refuting the claimed guarantee that the process is gone before
returning. -/
theorem browserClose_counterexample :
    browserClose none = ⟨true, true, false⟩
    ∧ (browserClose none).exitedAtReturn = false := by
  have h := browserClose_forcedKill none (by intro e he; cases he)
  exact ⟨h, by rw [h]⟩

/-- C8 (amended). `close()` sends SIGTERM, polls for exit for at most 5
seconds, and force-kills with SIGKILL if the process is still alive at the
ceiling; the exit is observed before return exactly on the graceful path —
after sending SIGKILL the function returns immediately without awaiting the
exit. -/
theorem browserClose_amended (t : Nat) :
    (t ≤ BROWSER_CLOSE_TIMEOUT_MS →
      browserClose (some t) = ⟨true, false, true⟩)
    ∧ (BROWSER_CLOSE_TIMEOUT_MS < t →
      browserClose (some t) = ⟨true, true, false⟩)
    ∧ browserClose none = ⟨true, true, false⟩
    ∧ BROWSER_CLOSE_TIMEOUT_MS = 5000 := by
  refine ⟨?_, ?_, ?_, rfl⟩
  · exact browserClose_graceful t
  · intro ht
    exact browserClose_forcedKill _ (by intro e he; cases he; omega)
  · exact browserClose_forcedKill none (by intro e he; cases he)

/-- C10. `parseCommand` never produces an empty token; a quoted empty
string contributes no token (the string a, quote pair, b parses to its two
outer tokens); every string built only of whitespace and adjacent identical
quote pairs parses to zero tokens, so `startProcess` throws the
empty-command error on such a string even though it is non-empty — shown
also concretely for the string of a double-quote pair, a space and a
single-quote pair. -/
theorem parseCommand_no_empty_token :
    (∀ cmd : String, "" ∉ parseCommand cmd)
    ∧ parseCommand ("a \"\" b") = ["a", "b"]
    ∧ (∀ cmd : String, QuotePairsWS cmd.data → cmd ≠ "" →
        parseCommand cmd = [] ∧ startProcess cmd = Except.error emptyCommandError)
    ∧ startProcess (String.mk ['"', '"', ' ', squote, squote])
      = Except.error emptyCommandError := by
  refine ⟨parseCommand_no_empty, by decide, ?_, rfl⟩
  intro cmd h hne
  have hfold := quotePairs_foldl cmd.data h ⟨[], "", false, '"'⟩ rfl rfl
  have hparse : parseCommand cmd = [] := by
    unfold parseCommand parseFinish
    rw [if_pos hfold.2.1]
    exact hfold.1
  exact ⟨hparse, by simp [startProcess, hparse]⟩

end HopeTerminal
